import Mathlib

/-!
Verification development for `concorde/util.py` of pyconcorde.

The module has three independent functions:

* `write_tsp_file(fp, xs, ys, norm, name)` — validates its inputs, then writes
  a TSPLIB instance description to the sink `fp`, one `fp.write` per line.
* `read_tsp_tour(fname)` — scans the lines of a file for a `TOUR_SECTION`
  block of whitespace-separated integers, stopping at the first `EOF` line.
* `symmetricize(matrix, k=None)` — the Jonker–Volgenant doubling construction
  turning an n×n asymmetric cost matrix into a 2n×2n symmetric one.

The embedding below follows the source line by line: coordinates are integers
rendered with `toString` (Python's `format` on ints agrees), matrix entries are
rationals (modelling numpy's exact arithmetic on the numeric inputs), a file is
its list of lines, and the sink of the writer is the string written so far.
-/

/-! ### The `EDGE_WEIGHT_TYPES` constant -/

/-- The module-level set `EDGE_WEIGHT_TYPES` of recognised TSPLIB norms
(a Python `set` of ten string constants, used only for membership tests). -/
def EDGE_WEIGHT_TYPES : List String :=
  ["EXPLICIT", "EUC_2D", "EUC_3D", "MAX_2D", "MAN_2D",
   "GEO", "GEOM", "ATT", "CEIL_2D", "DSJRAND"]

/-! ### `write_tsp_file` -/

/-- The coordinate lines of the write loop
`for n, (x, y) in enumerate(zip(xs, ys), start=1)`, which formats `n`, `x`
and `y` separated by single spaces — one line `<n> <x> <y>` per point, with
the 1-based counter threaded through. -/
def coord_lines : Nat → List (Int × Int) → List String
  | _, [] => []
  | n, (x, y) :: rest =>
      (toString n ++ " " ++ toString x ++ " " ++ toString y) :: coord_lines (n + 1) rest

/-- The successive lines emitted by the `fp.write` calls of `write_tsp_file`
after validation passes, in source order; each call writes one of these
followed by a newline. -/
def tsp_lines (xs ys : List Int) (norm name : String) : List String :=
  ["NAME: " ++ name,
   "TYPE: TSP",
   "DIMENSION: " ++ toString xs.length,
   "EDGE_WEIGHT_TYPE: " ++ norm,
   "NODE_COORD_SECTION"]
  ++ coord_lines 1 (xs.zip ys)
  ++ ["EOF"]

/-- The full text appended to the sink by a successful `write_tsp_file` call. -/
def tsp_text (xs ys : List Int) (norm name : String) : String :=
  String.join ((tsp_lines xs ys norm name).map (fun l => l ++ "\n"))

/-- Outcome of a `write_tsp_file` call: the final contents of the sink `fp`,
and the `ValueError` message when one was raised (`none` on success). -/
structure WriteResult where
  sink : String
  err : Option String
deriving DecidableEq

/-- `write_tsp_file(fp, xs, ys, norm, name)`: the two validation checks run
first, in source order, and raising leaves the sink untouched; otherwise the
header lines, coordinate lines and `EOF` line are appended to the sink.
(The source's second message joins a Python `set` in unspecified order; the
message text is approximated here, the claims only concern which error fires.) -/
def write_tsp_file (fp : String) (xs ys : List Int) (norm name : String) : WriteResult :=
  if xs.length ≠ ys.length then
    { sink := fp
      err := some ("x and y coordinate vector must have the same length ("
        ++ toString xs.length ++ " != " ++ toString ys.length ++ ")") }
  else if norm ∉ EDGE_WEIGHT_TYPES then
    { sink := fp
      err := some ("Norm " ++ norm ++ " must be one of "
        ++ String.intercalate ", " EDGE_WEIGHT_TYPES) }
  else
    { sink := fp ++ tsp_text xs ys norm name, err := none }

/-! ### `read_tsp_tour` -/

/-- Python's `line.startswith(pat)` on the underlying character sequences. -/
def startsWithChars : List Char → List Char → Bool
  | [], _ => true
  | _ :: _, [] => false
  | p :: ps, c :: cs => p == c && startsWithChars ps cs

/-- `line.startswith(pat)` for strings. -/
def startsWithPy (line pat : String) : Bool :=
  startsWithChars pat.data line.data

/-- Python's argumentless `line.split()`: split on runs of whitespace,
discarding empty pieces (so leading and trailing whitespace contribute
nothing). -/
def splitWs (line : String) : List String :=
  ((line.data.splitOnP Char.isWhitespace).filter (fun t => t ≠ [])).map String.mk

/-- Python's `int(tok)` on an optionally signed decimal numeral, the only
token shapes the tour files exercise (`None` models the `ValueError` raised
on anything unparseable). -/
def digitsVal (l : List Char) : Option Nat :=
  match l with
  | [] => none
  | _ => l.foldl (fun acc c => acc.bind
      (fun n => if c.isDigit then some (10 * n + (c.toNat - '0'.toNat)) else none)) (some 0)

/-- `int(tok)` with the optional leading sign. -/
def pyInt (t : String) : Option ℤ :=
  match t.data with
  | '-' :: rest => (digitsVal rest).map (fun n => -(n : ℤ))
  | '+' :: rest => (digitsVal rest).map (fun n => (n : ℤ))
  | l => (digitsVal l).map (fun n => (n : ℤ))

/-- The `for line in fp` loop of `read_tsp_tour`, returning the tokens the
loop feeds to `int` in order; the flag is the `has_tour` boolean.  A
`TOUR_SECTION` line sets the flag (its own tokens are not collected), an
`EOF` line breaks out of the loop at once, and any other line contributes its
whitespace-separated tokens exactly when the flag is set. -/
def scan_lines : List String → Bool → List String
  | [], _ => []
  | line :: rest, hasTour =>
    if startsWithPy line "TOUR_SECTION" then scan_lines rest true
    else if startsWithPy line "EOF" then []
    else (if hasTour then splitWs line else []) ++ scan_lines rest hasTour

/-- The two exceptions `read_tsp_tour` can raise: `ValueError` from `int` on
a malformed token, and the `RuntimeError` "File ... has no valid
TOUR_SECTION". -/
inductive TourError where
  | valueError
  | noTourFound
deriving DecidableEq

/-- `int` applied to every collected token (the generator expression inside
`tour.extend`); a `ValueError` aborts the whole call. -/
def parse_tokens (toks : List String) : Except TourError (List ℤ) :=
  match toks.mapM pyInt with
  | some vs => .ok vs
  | none => .error .valueError

/-- `read_tsp_tour(fname)` on a file given as its list of lines: collect and
parse the tokens, raise `NoTourFound` when nothing was collected, then drop a
trailing `-1` sentinel. -/
def read_tsp_tour (lines : List String) : Except TourError (List ℤ) :=
  match parse_tokens (scan_lines lines false) with
  | .error e => .error e
  | .ok tour =>
      if tour = [] then .error .noTourFound
      else if tour.getLast? = some (-1) then .ok tour.dropLast
      else .ok tour

/-! ### `symmetricize` -/

/-- Python's built-in `round` (round half to even), as applied in
`k = round(10*matrix.max())`. -/
def pyRound (q : ℚ) : ℤ :=
  let f := ⌊q⌋
  let frac := q - (f : ℚ)
  if frac < 1/2 then f
  else if 1/2 < frac then f + 1
  else if f % 2 = 0 then f else f + 1

/-- The matrix produced by `np.fill_diagonal(M, v)` (an n×n matrix is a
function of its two indices; all matrices here are read at indices below n). -/
def fill_diagonal (M : Nat → Nat → ℚ) (v : ℚ) : Nat → Nat → ℚ :=
  fun i j => if i = j then v else M i j

/-- `np.ones(matrix.shape).astype(int) * k`: the constant matrix. -/
def onesTimes (k : ℚ) : Nat → Nat → ℚ :=
  fun _ _ => k

/-- `np.transpose`. -/
def transposeM (M : Nat → Nat → ℚ) : Nat → Nat → ℚ :=
  fun i j => M j i

/-- `np.concatenate((A, B), axis=1)` where `A` has n columns. -/
def concatCols (n : Nat) (A B : Nat → Nat → ℚ) : Nat → Nat → ℚ :=
  fun i j => if j < n then A i j else B i (j - n)

/-- `np.concatenate((A, B), axis=0)` where `A` has n rows. -/
def concatRows (n : Nat) (A B : Nat → Nat → ℚ) : Nat → Nat → ℚ :=
  fun i j => if i < n then A i j else B (i - n) j

/-- `matrix.max()`: the largest of the n×n entries (numpy rejects an empty
matrix, so n is positive in every actual call). -/
def matMax (n : Nat) (M : Nat → Nat → ℚ) : ℚ :=
  (List.range n).foldl (fun a i => (List.range n).foldl (fun b j => max b (M i j)) a) (M 0 0)

/-- The constant `k` actually used: the caller's value when supplied, and
`round(10*matrix.max())` when the parameter was left as `None`. -/
def kOf (n : Nat) (M : Nat → Nat → ℚ) : Option ℚ → ℚ
  | some k => k
  | none => ((pyRound ((10 : ℚ) * matMax n M) : ℤ) : ℚ)

/-- `symmetricize(matrix, k=None)` for an n×n matrix: zero the diagonal of a
copy of `matrix`, build `u` with zero diagonal and `k` elsewhere, and
assemble the 2n×2n block matrix `[[u, matrix_bar^T], [matrix_bar, u]]`. -/
def symmetricize (n : Nat) (matrix : Nat → Nat → ℚ) (k : Option ℚ) : Nat → Nat → ℚ :=
  let kv := kOf n matrix k
  let matrix_bar := fill_diagonal matrix 0
  let u := fill_diagonal (onesTimes kv) 0
  let matrix_symm_top := concatCols n u (transposeM matrix_bar)
  let matrix_symm_bottom := concatCols n matrix_bar u
  concatRows n matrix_symm_top matrix_symm_bottom

/-! ### Heap model of `symmetricize`'s in-place operations

`matrix.copy()` allocates a fresh array and `np.fill_diagonal` mutates its
argument in place.  To talk about mutation at all we run the body over an
explicit heap of numpy arrays: allocation appends a cell, `np.fill_diagonal`
overwrites a cell, and the input matrix lives in the cell the caller passes. -/

/-- A heap of allocated numpy arrays. -/
abbrev NpHeap := List (Nat → Nat → ℚ)

/-- Read the array in heap cell `r`. -/
def heapGet (h : NpHeap) (r : Nat) : Nat → Nat → ℚ :=
  h.getD r (fun _ _ => 0)

/-- The body of `symmetricize` with its two allocations (`matrix.copy()` and
`np.matrix(np.ones(...))`) and its two in-place `np.fill_diagonal` writes made
explicit; `r` is the cell holding the caller's matrix, and the result is the
final heap together with the returned 2n×2n matrix. -/
def symmetricize_heap (h : NpHeap) (r : Nat) (n : Nat) (k : Option ℚ) :
    NpHeap × (Nat → Nat → ℚ) :=
  let matrix := heapGet h r
  let kv := kOf n matrix k
  let rbar := h.length
  let h1 := h ++ [matrix]
  let h2 := h1.set rbar (fill_diagonal (heapGet h1 rbar) 0)
  let ru := h2.length
  let h3 := h2 ++ [onesTimes kv]
  let h4 := h3.set ru (fill_diagonal (heapGet h3 ru) 0)
  let matrix_bar := heapGet h4 rbar
  let u := heapGet h4 ru
  (h4, concatRows n (concatCols n u (transposeM matrix_bar)) (concatCols n matrix_bar u))

/-! ### Concrete matrices used to instantiate the theorems -/

/-- A 2×2 matrix with distinct entries and maximum 4. -/
def Mex : Nat → Nat → ℚ :=
  fun i j => (([[1, 2], [3, 4]] : List (List ℚ)).getD i []).getD j 0

/-- A 2×2 matrix whose maximum entry is 5. -/
def M5 : Nat → Nat → ℚ :=
  fun i j => (([[2, 5], [3, 1]] : List (List ℚ)).getD i []).getD j 0

/-- A 2×2 matrix with non-zero diagonal entries. -/
def Mdiag : Nat → Nat → ℚ :=
  fun i j => (([[7, 2], [3, 9]] : List (List ℚ)).getD i []).getD j 0

/-! ## Helper lemmas -/

/-- Closed form of `symmetricize`: the four blocks of the 2n×2n result,
read off from the concatenations. -/
lemma symmetricize_apply (n : Nat) (M : Nat → Nat → ℚ) (k : Option ℚ) (i j : Nat) :
    symmetricize n M k i j =
      if i < n then
        (if j < n then (if i = j then 0 else kOf n M k)
         else (if j - n = i then 0 else M (j - n) i))
      else
        (if j < n then (if i - n = j then 0 else M (i - n) j)
         else (if i - n = j - n then 0 else kOf n M k)) := rfl

/-- Python `round` is the identity on integers. -/
lemma pyRound_intCast (z : ℤ) : pyRound ((z : ℚ)) = z := by
  unfold pyRound
  simp [Int.floor_intCast]

/-- The write loop emits one line per point. -/
lemma coord_lines_length (s : Nat) (ps : List (Int × Int)) :
    (coord_lines s ps).length = ps.length := by
  induction ps generalizing s with
  | nil => rfl
  | cons p rest ih => cases p; simp [coord_lines, ih]

/-- The i-th coordinate line carries the counter `s + i` and the i-th point. -/
lemma coord_lines_getElem (s : Nat) (ps : List (Int × Int)) :
    ∀ i, i < ps.length →
      (coord_lines s ps)[i]? =
        some (toString (s + i) ++ " " ++ toString (ps.getD i (0, 0)).1
          ++ " " ++ toString (ps.getD i (0, 0)).2) := by
  induction ps generalizing s with
  | nil => intro i hi; simp at hi
  | cons p rest ih =>
    intro i hi
    cases p with
    | mk x y =>
      cases i with
      | zero => simp [coord_lines]
      | succ i' =>
        have h := ih (s + 1) i' (by simpa using hi)
        simp only [coord_lines, List.getElem?_cons_succ, List.getD_cons_succ]
        rw [h]
        have e : s + 1 + i' = s + (i' + 1) := by omega
        rw [e]

/-- Reading `zip xs ys` componentwise. -/
lemma zip_getD (xs ys : List Int) (i : Nat) (hx : i < xs.length) (hy : i < ys.length) :
    (xs.zip ys).getD i (0, 0) = (xs.getD i 0, ys.getD i 0) := by
  have hz : i < (xs.zip ys).length := by simp [List.length_zip]; omega
  rw [List.getD_eq_getElem _ _ hz, List.getD_eq_getElem _ _ hx, List.getD_eq_getElem _ _ hy]
  exact List.getElem_zip

/-- Total number of lines written: five headers, one per point, one `EOF`. -/
lemma tsp_lines_length (xs ys : List Int) (norm name : String)
    (hlen : xs.length = ys.length) :
    (tsp_lines xs ys norm name).length = xs.length + 6 := by
  simp [tsp_lines, coord_lines_length, List.length_zip, hlen]

/-- The line for the i-th point sits at index 5 + i of the output. -/
lemma tsp_lines_point (xs ys : List Int) (norm name : String)
    (hlen : xs.length = ys.length) (i : Nat) (hi : i < xs.length) :
    (tsp_lines xs ys norm name)[5 + i]? =
      some (toString (i + 1) ++ " " ++ toString (xs.getD i 0) ++ " " ++ toString (ys.getD i 0)) := by
  have hcl : (coord_lines 1 (xs.zip ys)).length = xs.length := by
    rw [coord_lines_length]; simp [List.length_zip]; omega
  have hlit : (["NAME: " ++ name, "TYPE: TSP", "DIMENSION: " ++ toString xs.length,
      "EDGE_WEIGHT_TYPE: " ++ norm, "NODE_COORD_SECTION"] : List String).length = 5 := rfl
  unfold tsp_lines
  rw [List.getElem?_append_left (by simp only [List.length_append, hlit, hcl]; omega)]
  rw [List.getElem?_append_right (by simp only [hlit]; omega)]
  rw [hlit, show 5 + i - 5 = i from by omega]
  rw [coord_lines_getElem 1 (xs.zip ys) i (by simp [List.length_zip]; omega)]
  rw [zip_getD xs ys i hi (by omega)]
  rw [show 1 + i = i + 1 from by omega]

/-- The terminating `EOF` line sits right after the point lines. -/
lemma tsp_lines_eof (xs ys : List Int) (norm name : String)
    (hlen : xs.length = ys.length) :
    (tsp_lines xs ys norm name)[5 + xs.length]? = some "EOF" := by
  have hcl : (coord_lines 1 (xs.zip ys)).length = xs.length := by
    rw [coord_lines_length]; simp [List.length_zip]; omega
  have hlit : (["NAME: " ++ name, "TYPE: TSP", "DIMENSION: " ++ toString xs.length,
      "EDGE_WEIGHT_TYPE: " ++ norm, "NODE_COORD_SECTION"] : List String).length = 5 := rfl
  unfold tsp_lines
  rw [List.getElem?_append_right (by simp only [List.length_append, hlit, hcl]; omega)]
  simp only [List.length_append, hlit, hcl]
  rw [show 5 + xs.length - (5 + xs.length) = 0 from by omega]
  rfl

/-- A line that begins with `EOF` cannot also begin with `TOUR_SECTION`
(their first characters differ), so the `elif` branch of the loop fires. -/
lemma eof_not_tour (l : String) (h : startsWithPy l "EOF" = true) :
    startsWithPy l "TOUR_SECTION" = false := by
  unfold startsWithPy at h ⊢
  have he : "EOF".data = 'E' :: 'O' :: 'F' :: [] := rfl
  have ht : "TOUR_SECTION".data =
      'T' :: 'O' :: 'U' :: 'R' :: '_' :: 'S' :: 'E' :: 'C' :: 'T' :: 'I' :: 'O' :: 'N' :: [] := rfl
  rw [he] at h
  rw [ht]
  cases hd : l.data with
  | nil => rw [hd] at h; exact absurd h (by simp [startsWithChars])
  | cons c cs =>
    rw [hd] at h
    simp only [startsWithChars, Bool.and_eq_true, beq_iff_eq] at h
    obtain ⟨hc, -⟩ := h
    subst hc
    simp only [startsWithChars]
    rw [show (('T' == 'E') : Bool) = false from rfl, Bool.false_and]

/-- Scanning a block with no `TOUR_SECTION` line, up to an `EOF` line,
collects nothing when the flag is still down. -/
lemma scan_lines_skips (pre : List String) (rest : List String)
    (hpre : ∀ l ∈ pre, startsWithPy l "TOUR_SECTION" = false) (e : String)
    (heof : startsWithPy e "EOF" = true) :
    scan_lines (pre ++ e :: rest) false = [] := by
  induction pre with
  | nil =>
    have hnt := eof_not_tour e heof
    simp [scan_lines, hnt, heof]
  | cons l pre' ih =>
    have hl := hpre l (by simp)
    by_cases hle : startsWithPy l "EOF" = true
    · simp [scan_lines, hl, hle]
    · have hrest : ∀ x ∈ pre', startsWithPy x "TOUR_SECTION" = false :=
        fun x hx => hpre x (by simp [hx])
      simp [scan_lines, hl, hle, ih hrest]

/-- What `read_tsp_tour` returns once the collected tokens have parsed. -/
lemma read_tsp_tour_eq (lines : List String) (vs : List ℤ)
    (hp : parse_tokens (scan_lines lines false) = .ok vs) :
    read_tsp_tour lines =
      if vs = [] then .error .noTourFound
      else if vs.getLast? = some (-1) then .ok vs.dropLast
      else .ok vs := by
  unfold read_tsp_tour
  rw [hp]

/-! ## Claims -/

/-- C1: for every square n×n rational matrix C and every constant k with
`k > 2 * max(C)`, `symmetricize(C, k)` is a 2n×2n matrix that is symmetric,
whose quadrants are (top-left) U, (top-right) the transpose of C-bar,
(bottom-left) C-bar, (bottom-right) U — C-bar being C with zeroed diagonal
and U having 0 on the diagonal and k elsewhere — and whose main diagonal is
all zero. -/
theorem symmetricize_symmetric_quadrants
    (n : Nat) (C : Nat → Nat → ℚ) (k : ℚ) (_hk : 2 * matMax n C < k) :
    (∀ i j, i < 2 * n → j < 2 * n →
        symmetricize n C (some k) i j = symmetricize n C (some k) j i)
    ∧ (∀ i j, i < n → j < n →
        symmetricize n C (some k) i j = (if i = j then 0 else k)
        ∧ symmetricize n C (some k) i (n + j) = (if j = i then 0 else C j i)
        ∧ symmetricize n C (some k) (n + i) j = (if i = j then 0 else C i j)
        ∧ symmetricize n C (some k) (n + i) (n + j) = (if i = j then 0 else k))
    ∧ (∀ i, i < 2 * n → symmetricize n C (some k) i i = 0) := by
  refine ⟨?_, ?_, ?_⟩
  · intro i j hi hj
    rw [symmetricize_apply, symmetricize_apply]
    split_ifs <;> first | rfl | omega
  · intro i j hi hj
    have hni : ¬ n + i < n := by omega
    have hnj : ¬ n + j < n := by omega
    have ei : n + i - n = i := by omega
    have ej : n + j - n = j := by omega
    refine ⟨?_, ?_, ?_, ?_⟩
    · rw [symmetricize_apply, if_pos hi, if_pos hj]; rfl
    · rw [symmetricize_apply, if_pos hi, if_neg hnj, ej]
    · rw [symmetricize_apply, if_neg hni, if_pos hj, ei]
    · rw [symmetricize_apply, if_neg hni, if_neg hnj, ei, ej]; rfl
  · intro i hi
    rw [symmetricize_apply]
    by_cases h : i < n
    · rw [if_pos h, if_pos h, if_pos rfl]
    · rw [if_neg h, if_neg h, if_pos rfl]

/-- Witness for C1 at the 2×2 matrix `Mex` (max 4) with k = 9 > 8. -/
theorem symmetricize_symmetric_quadrants_witness :
    2 * matMax 2 Mex < 9 ∧ symmetricize 2 Mex (some 9) 0 3 = symmetricize 2 Mex (some 9) 3 0 := by
  have hk : 2 * matMax 2 Mex < 9 := by
    rw [show matMax 2 Mex = (4 : ℚ) from by decide]
    norm_num
  exact ⟨hk, (symmetricize_symmetric_quadrants 2 Mex 9 hk).1 0 3 (by decide) (by decide)⟩

/-- C2 (counterexample): the output of a valid `write_tsp_file` call does not
have `len(xs) + 5` lines — already for the empty instance it emits 6 lines
(five headers and `EOF`), not 5. -/
theorem tsp_lines_count_five_false :
    ¬ ((tsp_lines ([] : List Int) [] "EUC_2D" "t").length = ([] : List Int).length + 5) := by
  decide

/-- C2 (amended): for equal-length coordinate lists and a recognised norm the
writer succeeds and emits exactly `len(xs) + 6` lines — the five header lines,
one line per point, and the terminating `EOF` line — and the `DIMENSION` line
(index 2) states `len(xs)`. -/
theorem tsp_lines_count_six (fp : String) (xs ys : List Int) (norm name : String)
    (hlen : xs.length = ys.length) (hnorm : norm ∈ EDGE_WEIGHT_TYPES) :
    (tsp_lines xs ys norm name).length = xs.length + 6
    ∧ (tsp_lines xs ys norm name)[2]? = some ("DIMENSION: " ++ toString xs.length)
    ∧ (write_tsp_file fp xs ys norm name).err = none := by
  refine ⟨tsp_lines_length xs ys norm name hlen, rfl, ?_⟩
  simp [write_tsp_file, hlen, hnorm]

/-- Witness for C2's amended count at a one-point instance. -/
theorem tsp_lines_count_six_witness :
    (tsp_lines [(3 : Int)] [4] "EUC_2D" "p").length = [(3 : Int)].length + 6 :=
  (tsp_lines_count_six "" [3] [4] "EUC_2D" "p" (by decide) (by decide)).1

/-- C3: `write_tsp_file` raises (a `ValueError`, the spec's `InvalidInput`)
exactly when the coordinate lists differ in length or the norm is not one of
the ten recognised identifiers, and whenever it raises, the sink is left
untouched (the checks precede every write). -/
theorem write_tsp_file_validation (fp : String) (xs ys : List Int) (norm name : String) :
    ((write_tsp_file fp xs ys norm name).err.isSome
        ↔ (xs.length ≠ ys.length ∨ norm ∉ EDGE_WEIGHT_TYPES))
    ∧ ((write_tsp_file fp xs ys norm name).err.isSome →
        (write_tsp_file fp xs ys norm name).sink = fp) := by
  unfold write_tsp_file
  split_ifs with h1 h2 <;> simp_all

/-- Witness for C3: a mismatched call errors and leaves the sink unchanged. -/
theorem write_tsp_file_validation_witness :
    (write_tsp_file "abc" [1] [] "EUC_2D" "t").sink = "abc" :=
  (write_tsp_file_validation "abc" [1] [] "EUC_2D" "t").2 (by decide)

/-- C4: on valid input `write_tsp_file` appends exactly the `NAME` line, the
`TYPE: TSP` line, the `DIMENSION` line with the point count, the
`EDGE_WEIGHT_TYPE` line, the `NODE_COORD_SECTION` header, one line
`<1-based index> <x> <y>` per point in input order, and the final `EOF`
line, in that order. -/
theorem write_tsp_file_output_format (fp : String) (xs ys : List Int) (norm name : String)
    (hlen : xs.length = ys.length) (hnorm : norm ∈ EDGE_WEIGHT_TYPES) :
    write_tsp_file fp xs ys norm name =
      { sink := fp ++ tsp_text xs ys norm name, err := none }
    ∧ (tsp_lines xs ys norm name)[0]? = some ("NAME: " ++ name)
    ∧ (tsp_lines xs ys norm name)[1]? = some "TYPE: TSP"
    ∧ (tsp_lines xs ys norm name)[2]? = some ("DIMENSION: " ++ toString xs.length)
    ∧ (tsp_lines xs ys norm name)[3]? = some ("EDGE_WEIGHT_TYPE: " ++ norm)
    ∧ (tsp_lines xs ys norm name)[4]? = some "NODE_COORD_SECTION"
    ∧ (∀ i, i < xs.length →
        (tsp_lines xs ys norm name)[5 + i]? =
          some (toString (i + 1) ++ " " ++ toString (xs.getD i 0)
            ++ " " ++ toString (ys.getD i 0)))
    ∧ (tsp_lines xs ys norm name)[5 + xs.length]? = some "EOF" := by
  refine ⟨?_, by rfl, by rfl, by rfl, by rfl, ?_, ?_, tsp_lines_eof xs ys norm name hlen⟩
  · simp [write_tsp_file, hlen, hnorm]
  · simp [tsp_lines, List.getElem?_append]
  · intro i hi
    exact tsp_lines_point xs ys norm name hlen i hi

/-- Witness for C4 at a one-point instance. -/
theorem write_tsp_file_output_format_witness :
    (tsp_lines [(3 : Int)] [4] "EUC_2D" "p")[0]? = some ("NAME: " ++ "p") :=
  (write_tsp_file_output_format "" [3] [4] "EUC_2D" "p" (by decide) (by decide)).2.1

/-- C5: the scan of `read_tsp_tour` processes lines in file order — a
`TOUR_SECTION` line enters collection mode (collecting nothing itself), an
`EOF` line stops the scan at once in either mode, any other line contributes
its whitespace-separated tokens in order exactly when in collection mode,
lines before any `TOUR_SECTION` contribute nothing, and a file whose first
`EOF` line precedes any `TOUR_SECTION` line yields the `NoTourFound` error. -/
theorem read_tsp_tour_scan_behavior :
    (∀ line rest, startsWithPy line "TOUR_SECTION" = true →
        ∀ b, scan_lines (line :: rest) b = scan_lines rest true)
    ∧ (∀ line rest b, startsWithPy line "EOF" = true →
        scan_lines (line :: rest) b = [])
    ∧ (∀ line rest, startsWithPy line "TOUR_SECTION" = false →
        startsWithPy line "EOF" = false →
        scan_lines (line :: rest) true = splitWs line ++ scan_lines rest true)
    ∧ (∀ pre rest, (∀ l ∈ pre, startsWithPy l "TOUR_SECTION" = false
          ∧ startsWithPy l "EOF" = false) →
        scan_lines (pre ++ rest) false = scan_lines rest false)
    ∧ (∀ pre e rest, (∀ l ∈ pre, startsWithPy l "TOUR_SECTION" = false) →
        startsWithPy e "EOF" = true →
        read_tsp_tour (pre ++ e :: rest) = .error .noTourFound) := by
  refine ⟨?_, ?_, ?_, ?_, ?_⟩
  · intro line rest htour b
    simp [scan_lines, htour]
  · intro line rest b heof
    have hnt := eof_not_tour line heof
    simp [scan_lines, hnt, heof]
  · intro line rest hnt hne
    simp [scan_lines, hnt, hne]
  · intro pre rest hpre
    induction pre with
    | nil => rfl
    | cons l pre' ih =>
      have hl := hpre l (by simp)
      have hrest : ∀ x ∈ pre', startsWithPy x "TOUR_SECTION" = false
          ∧ startsWithPy x "EOF" = false := fun x hx => hpre x (by simp [hx])
      simp [scan_lines, hl.1, hl.2, ih hrest]
  · intro pre e rest hpre heof
    unfold read_tsp_tour
    rw [scan_lines_skips pre rest hpre e heof]
    rfl

/-- Witness for C5: an integer line and an `EOF` line before `TOUR_SECTION`
contribute nothing, and the premature `EOF` yields `NoTourFound`. -/
theorem read_tsp_tour_scan_behavior_witness :
    read_tsp_tour ["1 2", "EOF", "TOUR_SECTION", "3"] = .error .noTourFound :=
  read_tsp_tour_scan_behavior.2.2.2.2 ["1 2"] "EOF" ["TOUR_SECTION", "3"]
    (by decide) (by decide)

/-- C6: a tour section `1 2 3` followed by the `-1` sentinel reads as
`[1, 2, 3]`, and a tour section `5 4 3 2 1` with no sentinel reads back
unchanged — the trailing value is dropped exactly when it is `-1`. -/
theorem read_tsp_tour_sentinel_examples :
    read_tsp_tour ["TOUR_SECTION", "1 2 3", "-1", "EOF"] = .ok [1, 2, 3]
    ∧ read_tsp_tour ["TOUR_SECTION", "5 4 3 2 1", "EOF"] = .ok [5, 4, 3, 2, 1] :=
  ⟨rfl, rfl⟩

/-- C7: when every collected token parses as an integer, `read_tsp_tour`
fails with `NoTourFound` exactly when the collected sequence is empty, and
returns normally in every other case. -/
theorem read_tsp_tour_no_tour_iff (lines : List String) (vs : List ℤ)
    (hv : (scan_lines lines false).mapM pyInt = some vs) :
    (read_tsp_tour lines = .error .noTourFound ↔ vs = [])
    ∧ (vs ≠ [] → ∃ t, read_tsp_tour lines = .ok t) := by
  have hp : parse_tokens (scan_lines lines false) = .ok vs := by
    unfold parse_tokens; rw [hv]
  rw [read_tsp_tour_eq lines vs hp]
  rcases eq_or_ne vs [] with h | h
  · subst h; simp
  · rw [if_neg h]
    split_ifs with hlast
    · exact ⟨by simp [h], fun _ => ⟨vs.dropLast, rfl⟩⟩
    · exact ⟨by simp [h], fun _ => ⟨vs, rfl⟩⟩

/-- Witness for C7: a file with an empty tour section errors. -/
theorem read_tsp_tour_no_tour_iff_witness :
    read_tsp_tour ["TOUR_SECTION", "EOF"] = .error .noTourFound :=
  (read_tsp_tour_no_tour_iff ["TOUR_SECTION", "EOF"] [] rfl).1.mpr rfl

/-- C8 (counterexample): a tour section containing only the sentinel `-1`
reads back successfully as the empty tour, so a successful read is not
always non-empty. -/
theorem read_tsp_tour_lone_sentinel_empty :
    read_tsp_tour ["TOUR_SECTION", "-1", "EOF"] = .ok [] :=
  rfl

/-- C8 (amended): after every successful read the returned tour is non-empty,
except when the collected token sequence was exactly the single sentinel
`-1`, in which case the result is empty. -/
theorem read_tsp_tour_nonempty_unless_lone_sentinel (lines : List String) (t : List ℤ)
    (hok : read_tsp_tour lines = .ok t) (ht : t = []) :
    parse_tokens (scan_lines lines false) = .ok [-1] := by
  rcases hp : parse_tokens (scan_lines lines false) with e | tour
  · unfold read_tsp_tour at hok
    rw [hp] at hok
    simp at hok
  · rw [read_tsp_tour_eq lines tour hp] at hok
    by_cases h0 : tour = []
    · rw [if_pos h0] at hok; simp at hok
    · rw [if_neg h0] at hok
      by_cases hlast : tour.getLast? = some (-1)
      · rw [if_pos hlast] at hok
        have hdl : tour.dropLast = t := by simpa using hok
        have hlen : tour.length ≤ 1 := by
          have hLD := List.length_dropLast tour
          rw [hdl, ht] at hLD
          simp at hLD
          omega
        obtain ⟨x, hx⟩ : ∃ x, tour = [x] := by
          cases tour with
          | nil => exact absurd rfl h0
          | cons a l =>
            cases l with
            | nil => exact ⟨a, rfl⟩
            | cons b l' => simp at hlen
        subst hx
        simp only [List.getLast?_singleton, Option.some.injEq] at hlast
        rw [hlast]
      · rw [if_neg hlast] at hok
        have heq : tour = t := by simpa using hok
        rw [heq, ht] at h0
        exact absurd rfl h0

/-- Witness for C8's amended statement at the lone-sentinel file. -/
theorem read_tsp_tour_nonempty_unless_lone_sentinel_witness :
    parse_tokens (scan_lines ["TOUR_SECTION", "-1", "EOF"] false) = .ok [-1] :=
  read_tsp_tour_nonempty_unless_lone_sentinel ["TOUR_SECTION", "-1", "EOF"] [] rfl rfl

/-- C9: when the caller leaves `k` unset, `symmetricize` uses
`round(10 * max(C))`; in particular a matrix with maximum entry 5 gets
`k = 50`, so every off-diagonal entry of both U quadrants is 50. -/
theorem symmetricize_default_k (n : Nat) (M : Nat → Nat → ℚ) :
    kOf n M none = ((pyRound ((10 : ℚ) * matMax n M) : ℤ) : ℚ)
    ∧ (matMax n M = 5 → ∀ i j, i < n → j < n → i ≠ j →
        symmetricize n M none i j = 50 ∧ symmetricize n M none (n + i) (n + j) = 50) := by
  constructor
  · rfl
  · intro h5 i j hi hj hij
    have hk : kOf n M none = 50 := by
      unfold kOf
      rw [h5, show ((10 : ℚ) * 5) = ((50 : ℤ) : ℚ) from by norm_num, pyRound_intCast]
      norm_num
    have hni : ¬ n + i < n := by omega
    have hnj : ¬ n + j < n := by omega
    have ei : n + i - n = i := by omega
    have ej : n + j - n = j := by omega
    constructor
    · rw [symmetricize_apply, if_pos hi, if_pos hj, if_neg hij, hk]
    · rw [symmetricize_apply, if_neg hni, if_neg hnj, ei, ej, if_neg hij, hk]

/-- Witness for C9 at the 2×2 matrix `M5` with maximum 5. -/
theorem symmetricize_default_k_witness :
    symmetricize 2 M5 none 0 1 = 50 ∧ symmetricize 2 M5 none (2 + 0) (2 + 1) = 50 :=
  (symmetricize_default_k 2 M5).2 (by decide) 0 1 (by decide) (by decide) (by decide)

/-- C10: `symmetricize` never mutates the caller's matrix — the diagonal
zeroing is applied to `matrix.copy()`, so in the heap model of the body the
cell holding the input matrix is unchanged in every entry, including non-zero
diagonal entries. -/
theorem symmetricize_no_mutation (h : NpHeap) (r n : Nat) (k : Option ℚ)
    (hr : r < h.length) :
    ∀ i j, heapGet (symmetricize_heap h r n k).1 r i j = heapGet h r i j := by
  have main : (symmetricize_heap h r n k).1.getD r (fun _ _ => 0)
      = h.getD r (fun _ _ => 0) := by
    simp only [symmetricize_heap, heapGet]
    rw [List.getD_eq_getElem?_getD, List.getD_eq_getElem?_getD]
    rw [List.getElem?_set_ne (by simp; omega)]
    rw [List.getElem?_append, if_pos (by simp; omega)]
    rw [List.getElem?_set_ne (by omega)]
    rw [List.getElem?_append, if_pos hr]
  intro i j
  show ((symmetricize_heap h r n k).1.getD r fun _ _ => 0) i j
      = (h.getD r fun _ _ => 0) i j
  rw [main]

/-- Witness for C10 at a one-cell heap holding `Mdiag`, whose diagonal is
non-zero. -/
theorem symmetricize_no_mutation_witness :
    heapGet (symmetricize_heap [Mdiag] 0 2 none).1 0 1 1 = heapGet [Mdiag] 0 1 1 :=
  symmetricize_no_mutation [Mdiag] 0 2 none (by decide) 1 1
